import Mathlib

/-!
Shallow embedding of the grocery-scraper core (record model, validation,
deduplication, persistence state machine, retry/backoff, price parsing,
unit-price derivation, Algolia hit normalization, and the embedded
page-state JSON extractor), translated from the Python sources under
src/scrapers/, together with theorems settling the specification claims.

Conventions:
  * Python floats that hold currency amounts are modelled as rationals.
  * Python `None` for optional fields is modelled with `Option`.
  * Fallible Python code (try/except) is modelled with `Except` / `Option`.
-/

namespace Spec2Proof

/- The Batteries rational-arithmetic kernels are sealed by default;
open them up so that concrete record computations can be settled by
`decide`. -/
attribute [local semireducible] Rat.mul Rat.inv Rat.add Rat.sub Rat.ofScientific

/-! ## Python string primitives

Python `str.split()` with no argument splits on runs of whitespace and
discards empty pieces; `str.strip()` removes leading and trailing
whitespace.  Modelled on `List Char`. -/

/-- Characters Python treats as whitespace for `split` / `strip`
(ASCII subset, which is all the scraper data contains). -/
def isPySpace (c : Char) : Bool :=
  c = ' ' || c = '\t' || c = '\n' || c = '\r' || c = '\x0b' || c = '\x0c'

/-- Worker for `pySplit`: `acc` holds the current word, reversed. -/
def pySplitAux : List Char → List Char → List (List Char)
  | [], acc => if acc.isEmpty then [] else [acc.reverse]
  | c :: cs, acc =>
    if isPySpace c then
      if acc.isEmpty then pySplitAux cs [] else acc.reverse :: pySplitAux cs []
    else
      pySplitAux cs (c :: acc)

/-- Python `str.split()` (no separator): whitespace-run splitting,
dropping empty pieces. -/
def pySplit (l : List Char) : List (List Char) := pySplitAux l []

/-- Python `str.strip()`: drop leading and trailing whitespace. -/
def pyStrip (l : List Char) : List Char :=
  ((l.dropWhile isPySpace).reverse.dropWhile isPySpace).reverse

/-- Python `str.lower()` (ASCII case mapping suffices for this data). -/
def pyLower (l : List Char) : List Char := l.map Char.toLower

/-- Python `str.upper()` (ASCII case mapping suffices for this data). -/
def pyUpper (l : List Char) : List Char := l.map Char.toUpper

/-! ## common.py : normalize_product_name, parse_price -/

/-- From src/scrapers/common.py, `normalize_product_name`:
returns `""` on a falsy input, else
`' '.join(name.lower().strip().split())`. -/
def normalize_product_name (name : String) : String :=
  if name = "" then ""
  else String.intercalate " "
    ((pySplit (pyStrip (pyLower name.data))).map (fun w => String.mk w))

/-- Digits of a decimal string to a natural number (most significant first). -/
def digitsToNat (ds : List Char) : ℕ :=
  ds.foldl (fun acc c => 10 * acc + (c.toNat - '0'.toNat)) 0

/-- Value of a fractional digit string, e.g. `99` after a point is `99/100`. -/
def fracToRat (ds : List Char) : ℚ :=
  (digitsToNat ds : ℚ) / (10 : ℚ) ^ ds.length

/-- Model of CPython `float(str)` restricted to finite decimal literals:
optional sign, then `digits`, `digits.digits`, `digits.` or `.digits`,
with an optional decimal exponent; the whole string must be consumed.
The special forms `inf` and `nan` never occur in price data and are
omitted. -/
def pyFloatOfString (l : List Char) : Option ℚ :=
  let l := pyStrip l
  let (sign, l) : ℚ × List Char :=
    match l with
    | '+' :: r => (1, r)
    | '-' :: r => (-1, r)
    | r => (1, r)
  let intPart := l.takeWhile Char.isDigit
  let rest := l.dropWhile Char.isDigit
  let (fracPart, rest2) : List Char × List Char :=
    match rest with
    | '.' :: r => (r.takeWhile Char.isDigit, r.dropWhile Char.isDigit)
    | r => ([], r)
  let hadPoint : Bool := match rest with | '.' :: _ => true | _ => false
  if intPart.isEmpty ∧ (¬ hadPoint ∨ fracPart.isEmpty) then none
  else
    let mant : ℚ := sign * ((digitsToNat intPart : ℚ) + fracToRat fracPart)
    match rest2 with
    | [] => some mant
    | 'e' :: r | 'E' :: r =>
      let (esign, r) : ℤ × List Char :=
        match r with
        | '+' :: r2 => (1, r2)
        | '-' :: r2 => (-1, r2)
        | r2 => (1, r2)
      let eds := r.takeWhile Char.isDigit
      if eds.isEmpty ∨ ¬ (r.dropWhile Char.isDigit).isEmpty then none
      else some (mant * (10 : ℚ) ^ (esign * (digitsToNat eds : ℤ)))
    | _ => none

/-- From src/scrapers/common.py, `parse_price`: returns `none` on a falsy
input; strips currency symbols, replaces every comma with a decimal
point, strips whitespace, then converts with `float`; a conversion
failure yields `none` instead of raising. -/
def parse_price (price_str : String) : Option ℚ :=
  if price_str = "" then none
  else
    let cleaned := price_str.data.filter
      (fun c => ¬ (c = '$' || c = '€' || c = '£'))
    let cleaned := cleaned.map (fun c => if c = ',' then '.' else c)
    pyFloatOfString (pyStrip cleaned)

/-! ## Python truthiness helpers -/

/-- A small model of Python values for JSON-borne scalar fields, with
Python truthiness. -/
inductive PyVal where
  | none
  | bool (b : Bool)
  | int (n : ℤ)
  | str (s : String)
deriving DecidableEq

/-- Python truthiness of a `PyVal`. -/
def PyVal.truthy : PyVal → Bool
  | .none => false
  | .bool b => b
  | .int n => n ≠ 0
  | .str s => s ≠ ""

/-- Python truthiness of an optional string (absent and `""` are falsy). -/
def pyTruthyStr : Option String → Bool
  | Option.none => false
  | Option.some s => s ≠ ""

/-! ## sobeys_api.py : the Algolia hit

One search hit from the Algolia index, restricted to the keys
`_parse_algolia_product` reads.  Absent keys are `none`.  `storeId` is
the key `_search_store` injects into every hit before parsing. -/

structure AlgoliaHit where
  name : Option String := none
  title : Option String := none
  pageSlug : Option String := none
  price : Option ℚ := none
  brand : Option String := none
  manufacturer : Option String := none
  weight : Option String := none
  size : Option String := none
  priceQuantity : Option String := none
  uom : Option String := none
  unitPrice : Option ℚ := none
  inStock : Option PyVal := none
  upc : Option String := none
  gtin : Option String := none
  articleNumber : Option String := none
  images : Option (List String) := none
  image : Option String := none
  hierarchicalCategories : Option (List (String × List String)) := none
  categories : Option (List String) := none
  storeId : Option String := none
deriving DecidableEq

/-! ## base.py : ProductRecord -/

/-- From src/scrapers/base.py, the `ProductRecord` dataclass.  The
`raw_source` snippet is the Algolia hit for records built by the Sobeys
API scraper, and absent otherwise. -/
structure ProductRecord where
  store : String
  site_slug : String
  source_url : String
  scrape_ts : String
  external_id : Option String
  name : String
  brand : Option String
  size_text : Option String
  price : Option ℚ
  currency : String
  unit_price : Option ℚ
  unit_price_uom : Option String
  image_url : Option String
  category_path : Option String
  availability : String
  query_category : Option String
  raw_source : Option AlgoliaHit
deriving DecidableEq

/-- From src/scrapers/base.py, `ProductRecord.dedupe_key`: the
external id scoped by site when the id is truthy, else the composite of
normalized name, normalized size and store. -/
def ProductRecord.dedupe_key (r : ProductRecord) : String :=
  if pyTruthyStr r.external_id then
    r.site_slug ++ ":" ++ r.external_id.getD ""
  else
    let normalized_name := normalize_product_name r.name
    let normalized_size := normalize_product_name (r.size_text.getD "")
    r.site_slug ++ ":" ++ normalized_name ++ ":" ++ normalized_size
      ++ ":" ++ r.store

/-- True when an optional rational is present and negative. -/
def optNegative : Option ℚ → Bool
  | Option.none => false
  | Option.some p => decide (p < 0)

/-- The availability enum accepted by `validate`. -/
def valid_availability : List String := ["in_stock", "out_of_stock", "unknown"]

/-- From src/scrapers/base.py, `ProductRecord.validate`: required string
fields non-empty, `price` and `unit_price` non-negative when present,
`availability` in the enum.  The Python `isinstance` checks are vacuous
in this typed embedding, and the function is total, so the
catch-all-and-return-False branch is unreachable. -/
def ProductRecord.validate (r : ProductRecord) : Bool :=
  if r.store = "" then false
  else if r.site_slug = "" then false
  else if r.name = "" then false
  else if optNegative r.price then false
  else if optNegative r.unit_price then false
  else if ¬ valid_availability.contains r.availability then false
  else true

/-! ## base.py : BaseScraper dedup and persistence state

The parts of the mutable `BaseScraper` state that `is_duplicate` and
`save_record` touch: the in-memory seen-key set, the statistics
counters, and the append-only JSONL output log.  The seen-key set is a
Python `set`; it is modelled as a duplicate-free-by-construction list
queried by membership. -/

structure ScraperState where
  seen_keys : List String
  total_scraped : ℕ
  duplicates_skipped : ℕ
  invalid_records : ℕ
  pages_processed : ℕ
  errors : ℕ
  jsonl_log : List ProductRecord
deriving DecidableEq

/-- From src/scrapers/base.py, `BaseScraper.is_duplicate`: returns
whether the key was already seen and, when it was not, the state with
the key added to the seen set.  Note the key is added as a side effect
of the membership check. -/
def is_duplicate (st : ScraperState) (record : ProductRecord) :
    Bool × ScraperState :=
  let dedupe_key := record.dedupe_key
  if dedupe_key ∈ st.seen_keys then (true, st)
  else (false, { st with seen_keys := st.seen_keys ++ [dedupe_key] })

/-- From src/scrapers/base.py, `BaseScraper.save_record`: validate,
dedup-check, then append to the JSONL log.  `append_ok` models whether
the `append_jsonl` call succeeds or raises (the try/except around the
file write); on a raise the error counter is incremented and `False`
is returned. -/
def save_record (append_ok : Bool) (st : ScraperState)
    (record : ProductRecord) : Bool × ScraperState :=
  if ¬ record.validate then
    (false, { st with invalid_records := st.invalid_records + 1 })
  else
    let res := is_duplicate st record
    if res.1 then
      (false, { res.2 with duplicates_skipped := res.2.duplicates_skipped + 1 })
    else if append_ok then
      (true, { res.2 with
                jsonl_log := res.2.jsonl_log ++ [record],
                total_scraped := res.2.total_scraped + 1 })
    else
      (false, { res.2 with errors := res.2.errors + 1 })

/-! ## common.py : retry_on_exception

The decorator wraps an operation and loops
`for attempt in range(max_retries + 1)`, returning on success, sleeping
`backoff_base ** attempt` seconds after a matched-exception failure
that still has retries left, and re-raising the last exception after
the loop.  The wrapped operation is modelled as an oracle
`f : ℕ → Except E A` giving the outcome of each attempt; the model
returns the final outcome, the number of invocations, and the list of
sleep durations in order. -/

def retryGo {E A : Type} (f : ℕ → Except E A) (backoff_base : ℚ)
    (max_retries : ℕ) (attempt : ℕ) : Except E A × ℕ × List ℚ :=
  match f attempt with
  | .ok a => (.ok a, 1, [])
  | .error e =>
    if _h : attempt < max_retries then
      let r := retryGo f backoff_base max_retries (attempt + 1)
      (r.1, r.2.1 + 1, backoff_base ^ attempt :: r.2.2)
    else
      (.error e, 1, [])
termination_by max_retries + 1 - attempt

/-- From src/scrapers/common.py, `retry_on_exception` applied to an
operation whose per-attempt outcomes are given by `f`. -/
def retry_on_exception {E A : Type} (max_retries : ℕ) (backoff_base : ℚ)
    (f : ℕ → Except E A) : Except E A × ℕ × List ℚ :=
  retryGo f backoff_base max_retries 0

/-! ## sobeys_api.py : _calculate_unit_price

The Python uses `re.search` with the multi-pack pattern
`(\d+(?:\.\d+)?)\s*[xX]\s*(\d+(?:\.\d+)?)\s*([A-Z]+)` (the class also
holds the multiplication sign) when the uppercased size text contains
an `x`, and `(\d+(?:\.\d+)?)\s*([A-Z]+)` otherwise.  The searches are
modelled by trying a direct left-to-right match at every start
position, which agrees with `re.search` on these patterns. -/

/-- Match of the regex fragment `\d+(?:\.\d+)?` at the head of the
input: the numeric value and the remaining input. -/
def parseRegexNum (l : List Char) : Option (ℚ × List Char) :=
  let ds := l.takeWhile Char.isDigit
  if ds.isEmpty then none
  else
    let rest := l.dropWhile Char.isDigit
    match rest with
    | '.' :: r =>
      let fs := r.takeWhile Char.isDigit
      if fs.isEmpty then some ((digitsToNat ds : ℚ), rest)
      else some ((digitsToNat ds : ℚ) + fracToRat fs, r.dropWhile Char.isDigit)
    | _ => some ((digitsToNat ds : ℚ), rest)

/-- The regex fragment `\s*`. -/
def skipWs (l : List Char) : List Char := l.dropWhile isPySpace

/-- The regex class `[A-Z]`. -/
def isRegexUpper (c : Char) : Bool :=
  decide ('A' ≤ c) && decide (c ≤ 'Z')

/-- Match of `(\d+(?:\.\d+)?)\s*([A-Z]+)` anchored at the head. -/
def matchSingleAt (l : List Char) : Option (ℚ × String) :=
  match parseRegexNum l with
  | Option.none => none
  | Option.some (q, rest) =>
    let rest := skipWs rest
    let letters := rest.takeWhile isRegexUpper
    if letters.isEmpty then none else some (q, String.mk letters)

/-- `re.search` for the single-quantity pattern: first match over all
start positions. -/
def searchSingle : List Char → Option (ℚ × String)
  | [] => none
  | c :: cs =>
    match matchSingleAt (c :: cs) with
    | Option.some r => some r
    | Option.none => searchSingle cs

/-- Match of the multi-pack pattern anchored at the head: pack count,
per-unit quantity, and unit of measure. -/
def matchMultiAt (l : List Char) : Option (ℚ × ℚ × String) :=
  match parseRegexNum l with
  | Option.none => none
  | Option.some (count, rest) =>
    match skipWs rest with
    | [] => none
    | x :: rest2 =>
      if x = '×' ∨ x = 'X' then
        match parseRegexNum (skipWs rest2) with
        | Option.none => none
        | Option.some (unit_size, rest4) =>
          let letters := (skipWs rest4).takeWhile isRegexUpper
          if letters.isEmpty then none
          else some (count, unit_size, String.mk letters)
      else none

/-- `re.search` for the multi-pack pattern. -/
def searchMulti : List Char → Option (ℚ × ℚ × String)
  | [] => none
  | c :: cs =>
    match matchMultiAt (c :: cs) with
    | Option.some r => some r
    | Option.none => searchMulti cs

/-- Round a rational to the nearest integer, ties to even.  Models the
rounding CPython applies in `round(x, 2)`; on every value arising in
the claims the exact half-even result agrees with the result on the
binary double (checked by hand for the one midpoint case 2.495, where
the double is strictly above the midpoint and rounds up, as half-even
also does). -/
def roundHalfEvenInt (x : ℚ) : ℤ :=
  let f := ⌊x⌋
  let r := x - f
  if r < 1/2 then f
  else if r > 1/2 then f + 1
  else if f % 2 = 0 then f else f + 1

/-- Python `round(x, 2)`. -/
def pyRound2 (x : ℚ) : ℚ := (roundHalfEvenInt (x * 100) : ℚ) / 100

/-- The UOM-normalization ladder of `_calculate_unit_price`
(mL to L, g to kg, each-variants to EA); an unrecognized UOM is kept
unchanged. -/
def normalizeUom (quantity : ℚ) (uom : String) : ℚ × String :=
  if uom = "ML" ∨ uom = "MILLILITER" ∨ uom = "MILLILITRE" then
    (quantity / 1000, "L")
  else if uom = "G" ∨ uom = "GRAM" ∨ uom = "GRAMS" then
    (quantity / 1000, "KG")
  else if uom = "L" ∨ uom = "LITER" ∨ uom = "LITRE" then (quantity, "L")
  else if uom = "KG" ∨ uom = "KILOGRAM" ∨ uom = "KILOGRAMS" then
    (quantity, "KG")
  else if uom = "EA" ∨ uom = "EACH" ∨ uom = "UNIT" then (quantity, "EA")
  else (quantity, uom)

/-- From src/scrapers/sites/sobeys_api.py,
`SobeysAPIScraper._calculate_unit_price`: falsy price or size yields
nothing; the stripped, uppercased size text is matched with the
multi-pack pattern when it contains an `x` and with the single pattern
otherwise; the UOM is normalized; a positive quantity yields
`round(price / quantity, 2)` with the UOM, anything else nothing. -/
def calculate_unit_price (price : ℚ) (size_text : String) :
    Option (ℚ × String) :=
  if price = 0 ∨ size_text = "" then none
  else
    let size_clean := pyUpper (pyStrip size_text.data)
    let parsed : Option (ℚ × String) :=
      if size_clean.contains '×' ∨ size_clean.contains 'X' then
        match searchMulti size_clean with
        | Option.none => none
        | Option.some (count, unit_size, uom) => some (count * unit_size, uom)
      else
        match searchSingle size_clean with
        | Option.none => none
        | Option.some (q, uom) => some (q, uom)
    match parsed with
    | Option.none => none
    | Option.some (quantity, uom) =>
      let qu := normalizeUom quantity uom
      if 0 < qu.1 then some (pyRound2 (price / qu.1), qu.2)
      else none

/-! ## sobeys_api.py : _parse_algolia_product -/

/-- Python `a or b` on two optional strings (truthiness chaining). -/
def pyOrOpt (a b : Option String) : Option String :=
  if pyTruthyStr a then a else b

/-- Python `a or b` where the fallback is a plain string. -/
def pyOrStr (a : Option String) (b : String) : String :=
  if pyTruthyStr a then a.getD "" else b

/-- Python truthiness of an optional number (absent and `0` are falsy). -/
def pyTruthyRat : Option ℚ → Bool
  | Option.none => false
  | Option.some q => q ≠ 0

/-- One level of `hierarchicalCategories`: its value when present and
non-empty, taking the first element (the Python
`cat[0] if isinstance(cat, list) else cat`). -/
def hierLevel (hier : List (String × List String)) (level : String) :
    Option String :=
  match hier.lookup level with
  | Option.some (c :: _) => some c
  | _ => none

/-- The `lvl2`, `lvl1`, `lvl0` ladder of `_parse_algolia_product`. -/
def hierPick (hier : List (String × List String)) : Option String :=
  match hierLevel hier "lvl2" with
  | Option.some c => some c
  | Option.none =>
    match hierLevel hier "lvl1" with
    | Option.some c => some c
    | Option.none => hierLevel hier "lvl0"

/-- Python `upc_raw.split(',')[0]`. -/
def firstCommaField (s : String) : List Char :=
  s.data.takeWhile (fun c => c ≠ ',')

/-- From src/scrapers/sites/sobeys_api.py,
`SobeysAPIScraper._parse_algolia_product`: maps one Algolia hit to a
`ProductRecord`, or nothing when the name is falsy or the placeholder
`Unknown`.  `ts` stands for the `get_iso_timestamp()` call and
`query_category` for the same-named argument.  The numeric `float`
conversions are identities in this typed embedding. -/
def parse_algolia_product (ts : String) (query_category : Option String)
    (hit : AlgoliaHit) : Option ProductRecord :=
  let name := pyOrStr hit.name (pyOrStr hit.title (hit.pageSlug.getD "Unknown"))
  let price := hit.price
  let brand := pyOrOpt hit.brand hit.manufacturer
  let size_text := pyOrOpt hit.weight (pyOrOpt hit.size hit.priceQuantity)
  let size_text :=
    if pyTruthyStr size_text ∧ pyTruthyStr hit.uom then
      some (size_text.getD "" ++ " " ++ hit.uom.getD "")
    else size_text
  let unit_pair : Option ℚ × Option String :=
    if pyTruthyRat hit.unitPrice then (hit.unitPrice, hit.uom)
    else if pyTruthyRat price ∧ pyTruthyStr size_text then
      match calculate_unit_price (price.getD 0) (size_text.getD "") with
      | Option.some (u, m) => (some u, some m)
      | Option.none => (none, none)
    else (none, none)
  let category_path : Option String :=
    match hit.hierarchicalCategories with
    | Option.some hier => hierPick hier
    | Option.none =>
      match hit.categories with
      | Option.some cats =>
        if cats.isEmpty then none else some (String.intercalate " > " cats)
      | Option.none => none
  let in_stock := hit.inStock.getD (PyVal.bool true)
  let availability := if in_stock.truthy then "in_stock" else "out_of_stock"
  let upc_raw := pyOrOpt hit.upc (pyOrOpt hit.gtin hit.articleNumber)
  let external_id :=
    if pyTruthyStr upc_raw ∧ (upc_raw.getD "").data.contains ',' then
      some (String.mk (pyStrip (firstCommaField (upc_raw.getD ""))))
    else upc_raw
  let image_url : Option String :=
    match hit.images with
    | Option.some (c :: _) => some c
    | _ =>
      match hit.image with
      | Option.some i => some i
      | Option.none => none
  let source_url :=
    match hit.pageSlug with
    | Option.some slug => "https://www.sobeys.com/product/" ++ slug
    | Option.none => "https://www.sobeys.com"
  let record : ProductRecord :=
    { store := "Sobeys"
      site_slug := "sobeys"
      source_url := source_url
      scrape_ts := ts
      external_id := external_id
      name := name
      brand := brand
      size_text := size_text
      price := price
      currency := "CAD"
      unit_price := unit_pair.1
      unit_price_uom := unit_pair.2
      image_url := image_url
      category_path := category_path
      availability := availability
      query_category := query_category
      raw_source := some hit }
  if record.name = "" ∨ record.name = "Unknown" then none
  else some record

/-! ## sobeys_api.py : cross-store deduplication in search_products

After fanning one query out across the configured stores,
`search_products` deduplicates the combined list by the pair
`(product.external_id, product.raw_source.get('storeId', 'unknown'))`,
keeping the most recently scraped record per key and preserving first
insertion order.  Every record reaching this fold was built by
`_parse_algolia_product` and therefore carries its hit in
`raw_source`; the model reads the store id through the same
`'unknown'` default. -/

/-- The `(UPC, store id)` key of the cross-store dedup fold. -/
def store_key (p : ProductRecord) : Option String × String :=
  (p.external_id,
    match p.raw_source with
    | Option.some h => h.storeId.getD "unknown"
    | Option.none => "unknown")

/-- Lookup in the insertion-ordered association list that models the
`unique_products` dictionary. -/
def uniqLookup :
    List ((Option String × String) × ProductRecord) →
    (Option String × String) → Option ProductRecord
  | [], _ => none
  | kv :: rest, k => if kv.1 = k then some kv.2 else uniqLookup rest k

/-- One step of the fold: insert under a fresh key, else keep the entry
with the larger `scrape_ts`. -/
def upsertUnique
    (m : List ((Option String × String) × ProductRecord))
    (p : ProductRecord) :
    List ((Option String × String) × ProductRecord) :=
  let key := store_key p
  if (uniqLookup m key).isSome then
    m.map (fun kv =>
      if kv.1 = key ∧ kv.2.scrape_ts < p.scrape_ts then (key, p) else kv)
  else m ++ [(key, p)]

/-- The whole dedup pass of `search_products` (lines 331 to 352). -/
def cross_store_dedup (all_products : List ProductRecord) :
    List ProductRecord :=
  (all_products.foldl upsertUnique []).map (fun kv => kv.2)

/-! ## realcanadiansuperstore.py : _extract_products_from_next_data

The extractor walks the parsed `__NEXT_DATA__` JSON document.  JSON
values are modelled by `Jv`.  The Python accumulates into a local
`products` value and a caught exception (`JSONDecodeError`,
`AttributeError`, `KeyError`) makes the function return whatever
`products` holds at that point; this is modelled with
`Except Jv Jv`, the error carrying the accumulated value.  A
`TypeError` (indexing or iterating a number) is not caught by the
Python and would abort the whole page scrape; the model folds it into
the same failure constructor, which agrees with the Python on every
payload for which the function returns at all. -/

inductive Jv where
  | null
  | bool (b : Bool)
  | num (q : ℚ)
  | str (s : String)
  | arr (elems : List Jv)
  | obj (fields : List (String × Jv))

/-- First value stored under a key (Python dict keys are unique). -/
def jLookup : List (String × Jv) → String → Option Jv
  | [], _ => none
  | (k, v) :: rest, key => if k = key then some v else jLookup rest key

/-- Python truthiness of a JSON value. -/
def Jv.truthy : Jv → Bool
  | .null => false
  | .bool b => b
  | .num q => q ≠ 0
  | .str s => s ≠ ""
  | .arr xs => ¬ xs.isEmpty
  | .obj kvs => ¬ kvs.isEmpty

/-- Python `v.get(k, dflt)`: dictionary lookup with default, an
`AttributeError` on anything that is not a dictionary. -/
def pyDictGet (v : Jv) (k : String) (dflt : Jv) : Except Unit Jv :=
  match v with
  | .obj kvs => .ok ((jLookup kvs k).getD dflt)
  | _ => .error ()

/-- Python `k in v` for a string key: key membership in a dictionary,
element equality in a list, substring test in a string, a `TypeError`
otherwise. -/
def pyContains (k : String) (v : Jv) : Except Unit Bool :=
  match v with
  | .obj kvs => .ok ((jLookup kvs k).isSome)
  | .arr xs => .ok (xs.any (fun x => match x with
      | .str s => s = k
      | _ => false))
  | .str s => .ok (substringB k.data s.data)
  | _ => .error ()
where
  /-- Substring containment on character lists. -/
  substringB (needle : List Char) : List Char → Bool
    | [] => needle.isEmpty
    | c :: rest => needle.isPrefixOf (c :: rest) || substringB needle rest

/-- Python `for x in v`: the iterated elements, a `TypeError` on
non-iterables. -/
def pyIter (v : Jv) : Except Unit (List Jv) :=
  match v with
  | .arr xs => .ok xs
  | .str s => .ok (s.data.map (fun c => Jv.str (String.mk [c])))
  | .obj kvs => .ok (kvs.map (fun kv => Jv.str kv.1))
  | _ => .error ()

/-- Python `products.extend(tiles)`: list concatenation, iterating a
string as characters, a failure on anything else. -/
def pyExtend (products tiles : Jv) : Except Unit Jv :=
  match products, tiles with
  | .arr xs, .arr ys => .ok (.arr (xs ++ ys))
  | .arr xs, .str s =>
    .ok (.arr (xs ++ s.data.map (fun c => Jv.str (String.mk [c]))))
  | _, _ => .error ()

/-- The component loop shared by the search and the category path:
`component.get('data', {})`, membership test for `productTiles`, and
`products.extend(product_tiles)`. -/
def tilesLoop : List Jv → Jv → Except Jv Jv
  | [], products => .ok products
  | comp :: rest, products =>
    match pyDictGet comp "data" (.obj []) with
    | .error _ => .error products
    | .ok component_data =>
      match pyContains "productTiles" component_data with
      | .error _ => .error products
      | .ok b =>
        if b then
          match component_data with
          | .obj kvs =>
            let product_tiles := (jLookup kvs "productTiles").getD .null
            match pyExtend products product_tiles with
            | .error _ => .error products
            | .ok products2 => tilesLoop rest products2
          | _ => .error products
        else tilesLoop rest products

/-- The new-structure walk,
`container.get('layout', {}).get('sections', {})`, guarded by
`isinstance(sections, dict) and 'mainContentCollection' in sections`,
then the component loop.  Used for both `initialSearchData` and
`initialCategoryData`. -/
def sectionsWalk (container products : Jv) : Except Jv Jv :=
  match pyDictGet container "layout" (.obj []) with
  | .error _ => .error products
  | .ok layout =>
    if layout.truthy then
      match pyDictGet layout "sections" (.obj []) with
      | .error _ => .error products
      | .ok sections =>
        match sections with
        | .obj kvs =>
          match jLookup kvs "mainContentCollection" with
          | Option.some main_content =>
            match pyDictGet main_content "components" (.arr []) with
            | .error _ => .error products
            | .ok components =>
              match pyIter components with
              | .error _ => .error products
              | .ok comps => tilesLoop comps products
          | Option.none => .ok products
        | _ => .ok products
    else .ok products

/-- The legacy fallback `if not products and 'products' in container:
products = container['products']`. -/
def legacyProductsKey (container products : Jv) : Except Jv Jv :=
  if products.truthy then .ok products
  else
    match pyContains "products" container with
    | .error _ => .error products
    | .ok b =>
      if b then
        match container with
        | .obj kvs => .ok ((jLookup kvs "products").getD .null)
        | _ => .error products
      else .ok products

/-- The body of `_extract_products_from_next_data` from the parsed
JSON document onward (the HTML script-tag plumbing before the
`json.loads` is out of scope): path 1 is the new structure under
`initialSearchData`, path 2 the legacy `products` key, path 3 the same
pair under `initialCategoryData`. -/
def extractRun (data : Jv) : Except Jv Jv :=
  let products0 : Jv := .arr []
  match pyDictGet data "props" (.obj []) with
  | .error _ => .error products0
  | .ok props =>
    match pyDictGet props "pageProps" (.obj []) with
    | .error _ => .error products0
    | .ok page_props =>
      match pyDictGet page_props "initialSearchData" (.obj []) with
      | .error _ => .error products0
      | .ok search_data =>
        match (if search_data.truthy then sectionsWalk search_data products0
               else .ok products0) with
        | .error p => .error p
        | .ok products1 =>
          match legacyProductsKey search_data products1 with
          | .error p => .error p
          | .ok products2 =>
            if products2.truthy then .ok products2
            else
              match pyDictGet page_props "initialCategoryData" (.obj []) with
              | .error _ => .error products2
              | .ok category_data =>
                if category_data.truthy then
                  match sectionsWalk category_data products2 with
                  | .error p => .error p
                  | .ok products3 => legacyProductsKey category_data products3
                else .ok products2

/-- From src/scrapers/sites/realcanadiansuperstore.py,
`RealcanadiansuperstoreScraper._extract_products_from_next_data`: the
walk above, with a caught exception returning the accumulated
products. -/
def extract_products_from_next_data (data : Jv) : Jv :=
  match extractRun data with
  | .ok p => p
  | .error p => p

/-! ## Concrete sample data used by witnesses and boundary checks -/

/-- A valid baseline record (passes `validate`). -/
def sampleRecord : ProductRecord :=
  { store := "Sobeys"
    site_slug := "sobeys"
    source_url := "https://www.sobeys.com"
    scrape_ts := "2026-01-01T00:00:00Z"
    external_id := some "12345"
    name := "Milk 2%"
    brand := some "Lucerne"
    size_text := some "2 L"
    price := some (499/100)
    currency := "CAD"
    unit_price := none
    unit_price_uom := none
    image_url := none
    category_path := none
    availability := "in_stock"
    query_category := some "milk"
    raw_source := none }

/-- Same site and external id as `sampleRecord`, different payload. -/
def sampleRecordB : ProductRecord :=
  { sampleRecord with name := "Milk Two Percent", price := some (549/100) }

/-- No external id, noisy casing and whitespace in name and size. -/
def sampleRecordC : ProductRecord :=
  { sampleRecord with
      external_id := none
      name := "  MILK   2%"
      size_text := some "2  L " }

/-- No external id (empty string, which is falsy), clean name and size. -/
def sampleRecordD : ProductRecord :=
  { sampleRecord with
      external_id := some ""
      name := "milk 2%"
      size_text := some " 2 l" }

/-- The empty `BaseScraper` bookkeeping state at run start. -/
def initState : ScraperState :=
  { seen_keys := []
    total_scraped := 0
    duplicates_skipped := 0
    invalid_records := 0
    pages_processed := 0
    errors := 0
    jsonl_log := [] }

/-- A minimal Algolia hit: only a product name. -/
def sampleHit : AlgoliaHit := { name := some "Milk" }

/-- The record `_parse_algolia_product` builds from `sampleHit` at
timestamp `2026` with no query category. -/
def sampleHitRecord : ProductRecord :=
  { store := "Sobeys"
    site_slug := "sobeys"
    source_url := "https://www.sobeys.com"
    scrape_ts := "2026"
    external_id := none
    name := "Milk"
    brand := none
    size_text := none
    price := none
    currency := "CAD"
    unit_price := none
    unit_price_uom := none
    image_url := none
    category_path := none
    availability := "in_stock"
    query_category := none
    raw_source := some sampleHit }

/-- A hit as injected with the store id of store `1044`. -/
def storeHitA : AlgoliaHit := { storeId := some "1044" }

/-- A hit as injected with the store id of store `1086`. -/
def storeHitB : AlgoliaHit := { storeId := some "1086" }

/-- A record as produced for store `1044` of a multi-store run. -/
def storeRecordA : ProductRecord :=
  { sampleRecord with
      external_id := some "111"
      raw_source := some storeHitA }

/-- The same product as scraped at store `1086`. -/
def storeRecordB : ProductRecord :=
  { sampleRecord with
      external_id := some "111"
      price := some (529/100)
      raw_source := some storeHitB }

/-- A `__NEXT_DATA__` search payload with the given `sections` value. -/
def mkSearchPayload (sections : Jv) : Jv :=
  Jv.obj [("props", Jv.obj [("pageProps", Jv.obj [("initialSearchData",
    Jv.obj [("layout", Jv.obj [("sections", sections)])])])])]

/-- The `sections` container as a mapping keyed by section name, the
product tiles sitting in the components of `mainContentCollection`. -/
def dictSections (tiles : List Jv) : Jv :=
  Jv.obj [("mainContentCollection",
    Jv.obj [("components",
      Jv.arr [Jv.obj [("data", Jv.obj [("productTiles", Jv.arr tiles)])]])])]

/-- The `sections` container as a plain ordered list of section
objects, each carrying the same components. -/
def listSections (tiles : List Jv) : Jv :=
  Jv.arr [Jv.obj [("components",
    Jv.arr [Jv.obj [("data", Jv.obj [("productTiles", Jv.arr tiles)])]])]]

/-! # Theorems -/

/-- C3: `validate` returns `false` for a record with price `-0.01`,
`true` for an otherwise-valid record with price `0`, `false` for a
record with an empty name, and `false` for availability
`"discontinued"`; being a total `Bool`-valued function, it returns
`false` in every failing case rather than raising. -/
theorem validate_boundary :
    ProductRecord.validate { sampleRecord with price := some (-1/100) } = false
    ∧ ProductRecord.validate { sampleRecord with price := some 0 } = true
    ∧ ProductRecord.validate { sampleRecord with name := "" } = false
    ∧ ProductRecord.validate
        { sampleRecord with availability := "discontinued" } = false := by
  refine ⟨by decide, by decide, by decide, by decide⟩

/-- C4: unit-price derivation. For price 4.99 and size text `2 L` the
derived unit price is 2.50 per `L`; for price 6.99 and size text
`12 x 355 ml` the quantities multiply to 4260 mL = 4.26 L and the
derived unit price is 1.64 per `L`. -/
theorem unit_price_examples :
    calculate_unit_price (499/100) "2 L" = some (5/2, "L")
    ∧ calculate_unit_price (699/100) "12 x 355 ml" = some (41/25, "L") := by
  refine ⟨by decide, by decide⟩

/-- C9: `parse_price` is total (never raises): every input yields a
number or `none`; every comma is replaced by a decimal point before
conversion, so the European-style `4,99` parses to 4.99 while
`1,234.56` becomes the unparseable `1.234.56` and yields `none`. -/
theorem parse_price_contract :
    (∀ s : String, parse_price s = none ∨ ∃ q : ℚ, parse_price s = some q)
    ∧ parse_price "4,99" = some (499/100)
    ∧ parse_price "1,234.56" = none := by
  refine ⟨fun s => ?_, by decide, by decide⟩
  cases h : parse_price s with
  | none => exact Or.inl rfl
  | some q => exact Or.inr ⟨q, rfl⟩

/-- C1: for a valid record whose dedup key is not yet seen, calling
`save_record` twice in the same run persists exactly one copy to the
output log, increments `duplicates_skipped` by exactly 1, and the
second call returns `False`. -/
theorem save_record_run_idempotent (st : ScraperState) (r : ProductRecord)
    (hv : r.validate = true) (hfresh : r.dedupe_key ∉ st.seen_keys) :
    (save_record true st r).1 = true
    ∧ (save_record true (save_record true st r).2 r).1 = false
    ∧ (save_record true (save_record true st r).2 r).2.jsonl_log
        = st.jsonl_log ++ [r]
    ∧ (save_record true (save_record true st r).2 r).2.duplicates_skipped
        = st.duplicates_skipped + 1 := by
  refine ⟨?_, ?_, ?_, ?_⟩ <;>
    simp [save_record, is_duplicate, hv, hfresh]

/-- Witness for C1 at a concrete record and the empty run state. -/
theorem save_record_run_idempotent_witness :
    sampleRecord.validate = true
    ∧ sampleRecord.dedupe_key ∉ initState.seen_keys
    ∧ ((save_record true initState sampleRecord).1 = true
      ∧ (save_record true (save_record true initState sampleRecord).2
          sampleRecord).1 = false
      ∧ (save_record true (save_record true initState sampleRecord).2
          sampleRecord).2.jsonl_log = initState.jsonl_log ++ [sampleRecord]
      ∧ (save_record true (save_record true initState sampleRecord).2
          sampleRecord).2.duplicates_skipped
          = initState.duplicates_skipped + 1) :=
  ⟨by decide, by simp [initState],
    save_record_run_idempotent initState sampleRecord (by decide)
      (by simp [initState])⟩

/-- C8: `save_record` is not atomic with respect to the dedup set on a
storage error: when the append raises after validation and the
duplicate check pass, the call returns `False` with `errors`
incremented, the record is never persisted, yet its key is already in
the seen set, so every subsequent `save_record` of a record with the
same dedup key is counted as a duplicate and skipped. -/
theorem save_record_storage_error (st : ScraperState) (r r2 : ProductRecord)
    (ok2 : Bool) (hv : r.validate = true) (hv2 : r2.validate = true)
    (hfresh : r.dedupe_key ∉ st.seen_keys)
    (hkey : r2.dedupe_key = r.dedupe_key) :
    (save_record false st r).1 = false
    ∧ (save_record false st r).2.errors = st.errors + 1
    ∧ (save_record false st r).2.jsonl_log = st.jsonl_log
    ∧ r.dedupe_key ∈ (save_record false st r).2.seen_keys
    ∧ (∀ st2 : ScraperState, r.dedupe_key ∈ st2.seen_keys →
        (save_record ok2 st2 r2).1 = false
        ∧ (save_record ok2 st2 r2).2.duplicates_skipped
            = st2.duplicates_skipped + 1
        ∧ (save_record ok2 st2 r2).2.jsonl_log = st2.jsonl_log) := by
  refine ⟨?_, ?_, ?_, ?_, ?_⟩
  · simp [save_record, is_duplicate, hv, hfresh]
  · simp [save_record, is_duplicate, hv, hfresh]
  · simp [save_record, is_duplicate, hv, hfresh]
  · simp [save_record, is_duplicate, hv, hfresh]
  · intro st2 h2
    refine ⟨?_, ?_, ?_⟩ <;> simp [save_record, is_duplicate, hv2, hkey, h2]

/-- Witness for C8 at a concrete record and the empty run state. -/
theorem save_record_storage_error_witness :
    sampleRecord.validate = true
    ∧ sampleRecord.dedupe_key ∉ initState.seen_keys
    ∧ sampleRecord.dedupe_key = sampleRecord.dedupe_key
    ∧ ((save_record false initState sampleRecord).1 = false
      ∧ (save_record false initState sampleRecord).2.errors
          = initState.errors + 1
      ∧ (save_record false initState sampleRecord).2.jsonl_log
          = initState.jsonl_log
      ∧ sampleRecord.dedupe_key
          ∈ (save_record false initState sampleRecord).2.seen_keys
      ∧ (∀ st2 : ScraperState, sampleRecord.dedupe_key ∈ st2.seen_keys →
          (save_record true st2 sampleRecord).1 = false
          ∧ (save_record true st2 sampleRecord).2.duplicates_skipped
              = st2.duplicates_skipped + 1
          ∧ (save_record true st2 sampleRecord).2.jsonl_log
              = st2.jsonl_log)) :=
  ⟨by decide, by simp [initState], rfl,
    save_record_storage_error initState sampleRecord sampleRecord true
      (by decide) (by decide) (by simp [initState]) rfl⟩

/-! ## Split and strip interaction, for the dedup-key claim -/

/-- A whitespace-only suffix starting with the accumulator empty
splits to nothing. -/
theorem pySplitAux_spaces_nil (t : List Char)
    (ht : ∀ c ∈ t, isPySpace c = true) : pySplitAux t [] = [] := by
  induction t with
  | nil => rfl
  | cons c cs ih =>
    have hc := ht c (List.mem_cons_self c cs)
    simp [pySplitAux, hc,
      ih (fun x hx => ht x (List.mem_cons_of_mem c hx))]

/-- Splitting a whitespace-only list flushes just the accumulator. -/
theorem pySplitAux_spaces (t acc : List Char)
    (ht : ∀ c ∈ t, isPySpace c = true) :
    pySplitAux t acc = if acc.isEmpty then [] else [acc.reverse] := by
  cases t with
  | nil => rfl
  | cons c cs =>
    have hc := ht c (List.mem_cons_self c cs)
    have hcs : ∀ x ∈ cs, isPySpace x = true :=
      fun x hx => ht x (List.mem_cons_of_mem c hx)
    simp [pySplitAux, hc, pySplitAux_spaces_nil cs hcs]

/-- Trailing whitespace does not change the split. -/
theorem pySplitAux_append_trailing (t : List Char)
    (ht : ∀ c ∈ t, isPySpace c = true) :
    ∀ (l acc : List Char), pySplitAux (l ++ t) acc = pySplitAux l acc := by
  intro l
  induction l with
  | nil =>
    intro acc
    rw [List.nil_append, pySplitAux_spaces t acc ht]
    rfl
  | cons c cs ih =>
    intro acc
    by_cases hc : isPySpace c = true
    · simp [pySplitAux, hc, ih]
    · simp only [List.cons_append, pySplitAux]
      rw [if_neg (by simp [hc]), if_neg (by simp [hc])]
      exact ih (c :: acc)

/-- Trailing whitespace does not change `pySplit`. -/
theorem pySplit_append_trailing (l t : List Char)
    (ht : ∀ c ∈ t, isPySpace c = true) : pySplit (l ++ t) = pySplit l :=
  pySplitAux_append_trailing t ht l []

/-- Leading whitespace does not change `pySplit`. -/
theorem pySplit_dropWhile (l : List Char) :
    pySplit (l.dropWhile isPySpace) = pySplit l := by
  induction l with
  | nil => rfl
  | cons c cs ih =>
    by_cases hc : isPySpace c = true
    · simpa [List.dropWhile_cons, hc, pySplit, pySplitAux] using ih
    · simp [List.dropWhile_cons, hc]

/-- `str.strip()` before `str.split()` is redundant: the split of the
stripped list is the split of the list. -/
theorem pySplit_pyStrip (l : List Char) : pySplit (pyStrip l) = pySplit l := by
  have h2 : pySplit (pyStrip l) = pySplit (l.dropWhile isPySpace) := by
    unfold pyStrip
    have hdecomp :
        ((l.dropWhile isPySpace).reverse.dropWhile isPySpace).reverse
          ++ ((l.dropWhile isPySpace).reverse.takeWhile isPySpace).reverse
          = l.dropWhile isPySpace := by
      rw [← List.reverse_append, List.takeWhile_append_dropWhile,
        List.reverse_reverse]
    have ht : ∀ c ∈ ((l.dropWhile isPySpace).reverse.takeWhile
        isPySpace).reverse, isPySpace c = true := by
      intro c hc
      rw [List.mem_reverse] at hc
      exact List.mem_takeWhile_imp hc
    conv_rhs => rw [← hdecomp]
    rw [pySplit_append_trailing _ _ ht]
  rw [h2, pySplit_dropWhile]

/-- Two strings with the same lowercased whitespace tokenization
normalize identically. -/
theorem normalize_eq_of_split_eq (s t : String)
    (h : pySplit (pyLower s.data) = pySplit (pyLower t.data)) :
    normalize_product_name s = normalize_product_name t := by
  unfold normalize_product_name
  by_cases hs : s = "" <;> by_cases ht' : t = ""
  · rw [if_pos hs, if_pos ht']
  · rw [if_pos hs, if_neg ht']
    have h0 : pySplit (pyLower t.data) = [] := by
      rw [← h, hs]
      rfl
    rw [pySplit_pyStrip, h0]
    rfl
  · rw [if_neg hs, if_pos ht']
    have h0 : pySplit (pyLower s.data) = [] := by
      rw [h, ht']
      rfl
    rw [pySplit_pyStrip, h0]
    rfl
  · rw [if_neg hs, if_neg ht']
    rw [pySplit_pyStrip, pySplit_pyStrip, h]

/-- C5: `dedupe_key` is deterministic and normalization-insensitive.
With a truthy external id, records agreeing on `(site_slug,
external_id)` get equal keys.  Without one, records that agree on site
and store and whose `name` and `size_text` differ only in letter case
or insignificant whitespace (expressed as equal lowercased
whitespace tokenizations) get equal keys. -/
theorem dedupe_key_deterministic :
    (∀ (r1 r2 : ProductRecord) (e : String), e ≠ "" →
      r1.external_id = some e → r2.external_id = some e →
      r1.site_slug = r2.site_slug → r1.dedupe_key = r2.dedupe_key)
    ∧ (∀ r1 r2 : ProductRecord,
      pyTruthyStr r1.external_id = false →
      pyTruthyStr r2.external_id = false →
      r1.site_slug = r2.site_slug → r1.store = r2.store →
      pySplit (pyLower r1.name.data) = pySplit (pyLower r2.name.data) →
      pySplit (pyLower (r1.size_text.getD "").data)
        = pySplit (pyLower (r2.size_text.getD "").data) →
      r1.dedupe_key = r2.dedupe_key) := by
  constructor
  · intro r1 r2 e he h1 h2 hs
    unfold ProductRecord.dedupe_key
    rw [h1, h2, hs]
    simp [pyTruthyStr, he]
  · intro r1 r2 h1 h2 hs hst hname hsize
    unfold ProductRecord.dedupe_key
    rw [h1, h2, hs, hst,
      normalize_eq_of_split_eq r1.name r2.name hname,
      normalize_eq_of_split_eq (r1.size_text.getD "") (r2.size_text.getD "")
        hsize]
    simp

/-- Witness for C5: a pair agreeing on the external id, and a pair
without external ids differing only in case and whitespace. -/
theorem dedupe_key_deterministic_witness :
    sampleRecord.dedupe_key = sampleRecordB.dedupe_key
    ∧ sampleRecordC.dedupe_key = sampleRecordD.dedupe_key :=
  ⟨dedupe_key_deterministic.1 sampleRecord sampleRecordB "12345"
      (by decide) rfl rfl rfl,
    dedupe_key_deterministic.2 sampleRecordC sampleRecordD
      (by decide) (by decide) rfl rfl (by decide) (by decide)⟩

/-! ## Retry loop computations -/

/-- When every attempt up to the retry budget fails, the loop runs to
the end: one invocation per remaining attempt, one sleep after each
failed attempt that still has retries left, and the last exception as
the outcome. -/
theorem retryGo_all_fail {E A : Type} (f : ℕ → Except E A) (b : ℚ) (N : ℕ)
    (es : ℕ → E) (hf : ∀ i, i ≤ N → f i = .error (es i)) :
    ∀ (d a : ℕ), a + d = N →
      retryGo f b N a
        = (.error (es N), d + 1, (List.range' a d).map (fun i => b ^ i)) := by
  intro d
  induction d with
  | zero =>
    intro a ha
    have haN : a = N := by omega
    subst haN
    unfold retryGo
    rw [hf a (Nat.le_refl a)]
    simp
  | succ d ih =>
    intro a ha
    unfold retryGo
    rw [hf a (by omega)]
    have hlt : a < N := by omega
    simp only [hlt, dif_pos]
    rw [ih (a + 1) (by omega)]
    simp [List.range'_succ]

/-- When the first success happens within the budget, the loop stops
there: its result is returned after exactly the failed attempts plus
one invocation, with one sleep per failed attempt. -/
theorem retryGo_success {E A : Type} (f : ℕ → Except E A) (b : ℚ) (N : ℕ)
    (v : A) (k : ℕ) (hk : k ≤ N) (hfk : f k = .ok v)
    (hfail : ∀ i, i < k → ∃ e, f i = .error e) :
    ∀ (d a : ℕ), a + d = k →
      retryGo f b N a
        = (.ok v, d + 1, (List.range' a d).map (fun i => b ^ i)) := by
  intro d
  induction d with
  | zero =>
    intro a ha
    have hak : a = k := by omega
    subst hak
    unfold retryGo
    rw [hfk]
    simp
  | succ d ih =>
    intro a ha
    obtain ⟨e, he⟩ := hfail a (by omega)
    unfold retryGo
    rw [he]
    have hlt : a < N := by omega
    simp only [hlt, dif_pos]
    rw [ih (a + 1) (by omega)]
    simp [List.range'_succ]

/-- C7: the retry decorator applied to an operation that always raises
a matched exception invokes it exactly N+1 times, sleeps
`backoff_base ^ attempt` seconds between consecutive attempts, and
finally re-raises the last exception; when some attempt succeeds, its
result is returned after exactly that many invocations and no further
attempts occur. -/
theorem retry_on_exception_contract (E A : Type) :
    (∀ (N : ℕ) (b : ℚ) (f : ℕ → Except E A) (es : ℕ → E),
      (∀ i, i ≤ N → f i = .error (es i)) →
      retry_on_exception N b f
        = (.error (es N), N + 1, (List.range N).map (fun i => b ^ i)))
    ∧ (∀ (N : ℕ) (b : ℚ) (f : ℕ → Except E A) (v : A) (k : ℕ),
      k ≤ N → f k = .ok v → (∀ i, i < k → ∃ e, f i = .error e) →
      retry_on_exception N b f
        = (.ok v, k + 1, (List.range k).map (fun i => b ^ i))) := by
  constructor
  · intro N b f es hf
    unfold retry_on_exception
    rw [retryGo_all_fail f b N es hf N 0 (by omega), List.range_eq_range']
  · intro N b f v k hk hfk hfail
    unfold retry_on_exception
    rw [retryGo_success f b N v k hk hfk hfail k 0 (by omega),
      List.range_eq_range']

/-- Witness for C7 with budget N = 2 and base 2: an always-failing
operation runs 3 times with sleeps of 1 and 2 seconds; an operation
succeeding on its second attempt runs twice with one 1-second sleep. -/
theorem retry_on_exception_contract_witness :
    retry_on_exception 2 (2 : ℚ) (fun _ => (Except.error () : Except Unit ℕ))
      = (.error (), 3, [1, 2])
    ∧ retry_on_exception 2 (2 : ℚ)
        (fun i => if i = 1 then (Except.ok 7 : Except Unit ℕ) else .error ())
      = (.ok 7, 2, [1]) := by
  constructor
  · have h := (retry_on_exception_contract Unit ℕ).1 2 2
      (fun _ => .error ()) (fun _ => ()) (fun i _ => rfl)
    rw [h]
    norm_num [List.range_succ]
  · have h := (retry_on_exception_contract Unit ℕ).2 2 2
      (fun i => if i = 1 then .ok 7 else .error ()) 7 1 (by omega) rfl
      (fun i hi => ⟨(), by
        have h0 : i = 0 := by omega
        subst h0
        rfl⟩)
    rw [h]
    norm_num [List.range_succ]

/-- C10: every record the Sobeys Algolia hit parser produces has
availability `in_stock` or `out_of_stock`, never `unknown`; an absent
`inStock` field defaults to `in_stock`, and a present one gives
`in_stock` exactly when it is truthy. -/
theorem algolia_availability (ts : String) (qc : Option String)
    (hit : AlgoliaHit) (r : ProductRecord)
    (h : parse_algolia_product ts qc hit = some r) :
    (r.availability = "in_stock" ∨ r.availability = "out_of_stock")
    ∧ (hit.inStock = none → r.availability = "in_stock")
    ∧ (∀ v : PyVal, hit.inStock = some v →
      (r.availability = "in_stock" ↔ v.truthy = true)) := by
  have hrec : r.availability
      = (if (hit.inStock.getD (PyVal.bool true)).truthy then "in_stock"
          else "out_of_stock") := by
    simp only [parse_algolia_product] at h
    split at h
    · exact absurd h (by simp)
    · rw [← Option.some_inj.mp h]
  refine ⟨?_, ?_, ?_⟩
  · cases htr : (hit.inStock.getD (PyVal.bool true)).truthy
    · right
      simp [hrec, htr]
    · left
      simp [hrec, htr]
  · intro hnone
    simp [hrec, hnone, PyVal.truthy]
  · intro v hv
    rw [hrec, hv]
    cases htr : v.truthy <;> simp [htr]

/-- Witness for C10 at a minimal hit carrying only a name. -/
theorem algolia_availability_witness :
    (sampleHitRecord.availability = "in_stock"
      ∨ sampleHitRecord.availability = "out_of_stock")
    ∧ (sampleHit.inStock = none → sampleHitRecord.availability = "in_stock")
    ∧ (∀ v : PyVal, sampleHit.inStock = some v →
      (sampleHitRecord.availability = "in_stock" ↔ v.truthy = true)) :=
  algolia_availability "2026" none sampleHit sampleHitRecord (by decide)

/-! ## Cross-store dedup bookkeeping -/

/-- A present key comes from some entry of the association list. -/
theorem uniqLookup_isSome_mem
    (m : List ((Option String × String) × ProductRecord))
    (k : Option String × String) (h : (uniqLookup m k).isSome = true) :
    ∃ kv ∈ m, kv.1 = k := by
  induction m with
  | nil => simp [uniqLookup] at h
  | cons kv rest ih =>
    by_cases hk : kv.1 = k
    · exact ⟨kv, List.mem_cons_self kv rest, hk⟩
    · rw [uniqLookup, if_neg hk] at h
      obtain ⟨kv2, hmem, hkeq⟩ := ih h
      exact ⟨kv2, List.mem_cons_of_mem kv hmem, hkeq⟩

/-- Lookup across an append tries the left list first. -/
theorem uniqLookup_append
    (m1 m2 : List ((Option String × String) × ProductRecord))
    (k : Option String × String) :
    uniqLookup (m1 ++ m2) k
      = if (uniqLookup m1 k).isSome then uniqLookup m1 k
        else uniqLookup m2 k := by
  induction m1 with
  | nil => simp [uniqLookup]
  | cons kv rest ih =>
    by_cases hk : kv.1 = k
    · simp [uniqLookup, hk]
    · simp only [List.cons_append, uniqLookup, if_neg hk]
      exact ih

/-- Mapping an entry-wise key-preserving function preserves key
presence. -/
theorem uniqLookup_map_keyfix
    (m : List ((Option String × String) × ProductRecord))
    (f : ((Option String × String) × ProductRecord) →
      ((Option String × String) × ProductRecord))
    (hf : ∀ kv ∈ m, (f kv).1 = kv.1) (k : Option String × String) :
    (uniqLookup (m.map f) k).isSome = (uniqLookup m k).isSome := by
  induction m with
  | nil => rfl
  | cons kv rest ih =>
    have hkv := hf kv (List.mem_cons_self kv rest)
    by_cases hk : kv.1 = k
    · simp [uniqLookup, hk, hkv]
    · simp only [List.map_cons, uniqLookup, hkv, if_neg hk]
      exact ih (fun kv2 h2 => hf kv2 (List.mem_cons_of_mem kv h2))

/-- The key of an inserted record is present after `upsertUnique`. -/
theorem uniqLookup_upsert_self
    (m : List ((Option String × String) × ProductRecord))
    (q : ProductRecord) :
    (uniqLookup (upsertUnique m q) (store_key q)).isSome = true := by
  unfold upsertUnique
  by_cases hq : (uniqLookup m (store_key q)).isSome = true
  · rw [if_pos hq]
    rw [uniqLookup_map_keyfix]
    · exact hq
    · intro kv hkv
      by_cases hc : kv.1 = store_key q ∧ kv.2.scrape_ts < q.scrape_ts
      · simp [hc, hc.1]
      · rw [if_neg hc]
  · rw [if_neg hq, uniqLookup_append]
    simp only [Bool.not_eq_true] at hq
    simp [hq, uniqLookup]

/-- A key already present stays present after `upsertUnique`. -/
theorem uniqLookup_upsert_mono
    (m : List ((Option String × String) × ProductRecord))
    (q : ProductRecord) (k : Option String × String)
    (h : (uniqLookup m k).isSome = true) :
    (uniqLookup (upsertUnique m q) k).isSome = true := by
  unfold upsertUnique
  by_cases hq : (uniqLookup m (store_key q)).isSome = true
  · rw [if_pos hq]
    rw [uniqLookup_map_keyfix]
    · exact h
    · intro kv hkv
      by_cases hc : kv.1 = store_key q ∧ kv.2.scrape_ts < q.scrape_ts
      · simp [hc, hc.1]
      · rw [if_neg hc]
  · rw [if_neg hq, uniqLookup_append, if_pos h]
    exact h

/-- Every record fed to the fold leaves its key present in the final
dictionary. -/
theorem foldl_upsert_key_present (ps : List ProductRecord) :
    ∀ (m : List ((Option String × String) × ProductRecord))
      (p : ProductRecord),
      p ∈ ps ∨ (uniqLookup m (store_key p)).isSome = true →
      (uniqLookup (ps.foldl upsertUnique m) (store_key p)).isSome = true := by
  induction ps with
  | nil =>
    intro m p h
    cases h with
    | inl hmem => exact absurd hmem (List.not_mem_nil p)
    | inr hin => exact hin
  | cons q rest ih =>
    intro m p h
    rw [List.foldl_cons]
    apply ih
    cases h with
    | inl hmem =>
      rcases List.mem_cons.mp hmem with h1 | h2
      · right
        rw [h1]
        exact uniqLookup_upsert_self m q
      · left
        exact h2
    | inr hin =>
      right
      exact uniqLookup_upsert_mono m q _ hin

/-- Every stored entry is keyed by the store key of its record. -/
theorem upsert_stores_key
    (m : List ((Option String × String) × ProductRecord))
    (q : ProductRecord) (hm : ∀ kv ∈ m, kv.1 = store_key kv.2) :
    ∀ kv ∈ upsertUnique m q, kv.1 = store_key kv.2 := by
  unfold upsertUnique
  by_cases hq : (uniqLookup m (store_key q)).isSome = true
  · rw [if_pos hq]
    intro kv hkv
    rw [List.mem_map] at hkv
    obtain ⟨kv0, hkv0, hfeq⟩ := hkv
    by_cases hc : kv0.1 = store_key q ∧ kv0.2.scrape_ts < q.scrape_ts
    · rw [← hfeq]
      simp [hc]
    · rw [← hfeq]
      simp only [hc, if_false]
      exact hm kv0 hkv0
  · rw [if_neg hq]
    intro kv hkv
    rcases List.mem_append.mp hkv with h1 | h2
    · exact hm kv h1
    · rw [List.mem_singleton.mp h2]

/-- The fold keeps every entry keyed by the store key of its record. -/
theorem foldl_upsert_invariant (ps : List ProductRecord) :
    ∀ (m : List ((Option String × String) × ProductRecord)),
      (∀ kv ∈ m, kv.1 = store_key kv.2) →
      ∀ kv ∈ ps.foldl upsertUnique m, kv.1 = store_key kv.2 := by
  induction ps with
  | nil => intro m hm; exact hm
  | cons q rest ih =>
    intro m hm
    rw [List.foldl_cons]
    exact ih (upsertUnique m q) (upsert_stores_key m q hm)

/-- C2: in a multi-store run, the dedup key of `search_products` is
the pair of external id and store id, so two records with equal
external id coming from different store contexts have distinct keys
and the cross-store dedup pass retains a record for each of the two
keys: neither is collapsed as a duplicate of the other. -/
theorem multi_store_dedup_key (ps : List ProductRecord)
    (p1 p2 : ProductRecord) (hitA hitB : AlgoliaHit)
    (hm1 : p1 ∈ ps) (hm2 : p2 ∈ ps)
    (hr1 : p1.raw_source = some hitA) (hr2 : p2.raw_source = some hitB)
    (_hid : p1.external_id = p2.external_id)
    (hstores : hitA.storeId.getD "unknown" ≠ hitB.storeId.getD "unknown") :
    store_key p1 = (p1.external_id, hitA.storeId.getD "unknown")
    ∧ store_key p2 = (p2.external_id, hitB.storeId.getD "unknown")
    ∧ store_key p1 ≠ store_key p2
    ∧ (∃ q ∈ cross_store_dedup ps, store_key q = store_key p1)
    ∧ (∃ q ∈ cross_store_dedup ps, store_key q = store_key p2) := by
  have hk1 : store_key p1 = (p1.external_id, hitA.storeId.getD "unknown") := by
    simp [store_key, hr1]
  have hk2 : store_key p2 = (p2.external_id, hitB.storeId.getD "unknown") := by
    simp [store_key, hr2]
  have hne : store_key p1 ≠ store_key p2 := by
    rw [hk1, hk2]
    intro hcontra
    exact hstores (congrArg Prod.snd hcontra)
  have hpres : ∀ p ∈ ps,
      ∃ q ∈ cross_store_dedup ps, store_key q = store_key p := by
    intro p hp
    have hsome := foldl_upsert_key_present ps [] p (Or.inl hp)
    obtain ⟨kv, hkv, hkeq⟩ := uniqLookup_isSome_mem _ _ hsome
    have hinv := foldl_upsert_invariant ps [] (by simp) kv hkv
    refine ⟨kv.2, ?_, ?_⟩
    · exact List.mem_map_of_mem (fun kv => kv.2) hkv
    · rw [← hinv, hkeq]
  exact ⟨hk1, hk2, hne, hpres p1 hm1, hpres p2 hm2⟩

/-- Witness for C2: the same product scraped at stores 1044 and 1086
survives the cross-store dedup as two entries. -/
theorem multi_store_dedup_key_witness :
    store_key storeRecordA
      = (storeRecordA.external_id, storeHitA.storeId.getD "unknown")
    ∧ store_key storeRecordB
      = (storeRecordB.external_id, storeHitB.storeId.getD "unknown")
    ∧ store_key storeRecordA ≠ store_key storeRecordB
    ∧ (∃ q ∈ cross_store_dedup [storeRecordA, storeRecordB],
        store_key q = store_key storeRecordA)
    ∧ (∃ q ∈ cross_store_dedup [storeRecordA, storeRecordB],
        store_key q = store_key storeRecordB) :=
  multi_store_dedup_key [storeRecordA, storeRecordB] storeRecordA storeRecordB
    storeHitA storeHitB (by simp) (by simp) rfl rfl rfl (by decide)

/-- C6 counterexample: on a payload whose `sections` container is a
plain ordered list of section objects carrying product tiles, the
extractor returns the empty list, not the non-empty tile list: only
the mapping shape is handled. -/
theorem next_data_list_sections_counterexample :
    extract_products_from_next_data
      (mkSearchPayload (listSections [Jv.str "tile"])) = Jv.arr []
    ∧ Jv.arr ([] : List Jv) ≠ Jv.arr [Jv.str "tile"] := by
  constructor
  · rfl
  · simp

/-- C6 (amended): for every non-empty tile list, the extractor returns
the tiles when the `sections` container is a mapping keyed by section
name, and returns the empty product list when `sections` is a plain
ordered list of section objects (the list shape is not descended
into; only the legacy fallbacks would apply). -/
theorem next_data_sections_shapes (tiles : List Jv) (ht : tiles ≠ []) :
    extract_products_from_next_data (mkSearchPayload (dictSections tiles))
      = Jv.arr tiles
    ∧ extract_products_from_next_data (mkSearchPayload (listSections tiles))
      = Jv.arr [] := by
  cases tiles with
  | nil => exact absurd rfl ht
  | cons t ts => exact ⟨rfl, rfl⟩

/-- Witness for the amended C6 at a singleton tile list. -/
theorem next_data_sections_shapes_witness :
    ([Jv.str "tile2"] ≠ ([] : List Jv))
    ∧ extract_products_from_next_data
        (mkSearchPayload (dictSections [Jv.str "tile2"]))
        = Jv.arr [Jv.str "tile2"]
    ∧ extract_products_from_next_data
        (mkSearchPayload (listSections [Jv.str "tile2"]))
        = Jv.arr [] :=
  ⟨by simp,
    (next_data_sections_shapes [Jv.str "tile2"] (by simp)).1,
    (next_data_sections_shapes [Jv.str "tile2"] (by simp)).2⟩

end Spec2Proof
